import Mathlib

/-!
Shallow embedding of the Flask task-manager backend (`src/api/app.py`).

The program is a single-table CRUD service over SQLite via SQLAlchemy.
We model:
  * the `Task` model (lines 19-30) as a Lean structure; `DateTime`
    values are modelled as natural numbers (SQLite stores them as
    ISO text whose lexicographic order agrees with chronological order);
  * the database as a list of rows (`Store`);
  * each Flask handler as a pure function taking the store (and, where
    the handler reads the clock through `datetime.utcnow` defaults, an
    explicit `now` argument) and returning the new store, the HTTP
    status code, and the response payload.

Behaviour of the underlying libraries that the code relies on is
embedded faithfully:
  * `Task.query.get_or_404` raises `werkzeug.exceptions.NotFound`,
    which is a subclass of `Exception`; every handler wraps its body in
    `try/except Exception`, so the 404 is caught and converted into a
    500 response carrying `str(e)`;
  * SQLAlchemy flushes an `UPDATE` only when some attribute has a net
    change relative to its committed value; the `onupdate=datetime.utcnow`
    hook on `updated_at` fires only when such an `UPDATE` is issued;
  * SQLite assigns a fresh integer primary key as one plus the largest
    id currently in the table (the column is a rowid alias and the table
    is created without AUTOINCREMENT), so ids of deleted rows can be
    reused;
  * `column.ilike(f'%{search}%')` interpolates the search term unescaped
    into a SQL LIKE pattern evaluated ASCII-case-insensitively, where
    `%` matches any sequence of characters and `_` matches exactly one
    character.
-/

deriving instance DecidableEq for Except

namespace TaskApp

/-- The `Task` SQLAlchemy model (`app.py` lines 19-30). `db.DateTime`
columns are modelled as `Nat`; `nullable` text columns as `Option String`. -/
structure Task where
  id : Nat
  date : String
  entity_name : String
  task_type : String
  time : String
  contact_person : String
  notes : Option String
  status : String
  phone_number : Option String
  created_at : Nat
  updated_at : Nat
deriving DecidableEq

/-- The camelCase wire representation produced by `Task.to_dict`
(`app.py` lines 32-45).  `isoformat` on a timestamp is injective, so the
timestamp itself stands for the formatted string; `created_at` and
`updated_at` are always populated by the column defaults, hence `some`. -/
structure TaskDict where
  id : Nat
  date : String
  entityName : String
  taskType : String
  time : String
  contactPerson : String
  notes : Option String
  status : String
  phoneNumber : Option String
  createdAt : Option Nat
  updatedAt : Option Nat
deriving DecidableEq

/-- `Task.to_dict` (`app.py` lines 32-45). -/
def Task.to_dict (t : Task) : TaskDict :=
  { id := t.id
    date := t.date
    entityName := t.entity_name
    taskType := t.task_type
    time := t.time
    contactPerson := t.contact_person
    notes := t.notes
    status := t.status
    phoneNumber := t.phone_number
    createdAt := some t.created_at
    updatedAt := some t.updated_at }

/-- The database: the single `task` table, a list of rows. -/
structure Store where
  tasks : List Task
deriving DecidableEq

/-- Tries a matcher `f` on every suffix of the string (including the
string itself and the empty suffix): how a `%` wildcard consumes zero or
more characters. -/
def matchSuffixes (f : List Char → Bool) : List Char → Bool
  | [] => f []
  | c :: s => f (c :: s) || matchSuffixes f s

/-- SQL LIKE pattern matching over characters, ASCII-case-insensitive
(SQLAlchemy compiles `ilike` on SQLite to `lower(col) LIKE lower(pat)`,
and SQLite's LIKE/lower are ASCII-only, as is `Char.toLower`):
`%` matches any sequence, `_` matches exactly one character, any other
pattern character matches itself up to ASCII case. -/
def likeMatch : List Char → List Char → Bool
  | [], s => s.isEmpty
  | p :: ps, s =>
    if p = '%' then matchSuffixes (likeMatch ps) s
    else
      match s with
      | [] => false
      | c :: s' =>
        if p = '_' then likeMatch ps s'
        else (p.toLower == c.toLower) && likeMatch ps s'

/-- `column.ilike(f'%{search}%')` (`app.py` lines 90-91): the raw term is
interpolated, unescaped, between two `%` wildcards. -/
def ilike (hay term : String) : Bool :=
  likeMatch ('%' :: (term.toList ++ ['%'])) hay.toList

/-- Lower-cased character list of a string (ASCII case folding). -/
def lowerChars (x : String) : List Char :=
  x.toList.map Char.toLower

/-- Spec-side definition, following the spec's words (not the code), for
comparison with `ilike`: `term` occurs in `hay` case-insensitively as an
unanchored, untokenized substring. -/
def containsCI (hay term : String) : Prop :=
  lowerChars term <:+: lowerChars hay

instance (hay term : String) : Decidable (containsCI hay term) :=
  List.decidableInfix _ _

/-- The JSON body of a POST `/api/tasks` request (`app.py` line 104):
each field either absent (`none`) or a string.  (Supplying JSON `null`
behaves like an absent field for `data.get`, so `none` also covers it.) -/
structure CreateInput where
  date : Option String
  entityName : Option String
  taskType : Option String
  time : Option String
  contactPerson : Option String
  notes : Option String
  status : Option String
  phoneNumber : Option String
deriving DecidableEq

/-- Python truthiness test `not data.get(field)` for a string field:
true when the field is absent or the empty string. -/
def falsy (o : Option String) : Bool :=
  o.getD "" == ""

/-- The required-field loop of `create_task` (`app.py` lines 105-109):
returns the first field of
`['entityName', 'taskType', 'time', 'contactPerson', 'date', 'status']`
that is missing or empty, if any. -/
def firstMissing (d : CreateInput) : Option String :=
  if falsy d.entityName then some "entityName"
  else if falsy d.taskType then some "taskType"
  else if falsy d.time then some "time"
  else if falsy d.contactPerson then some "contactPerson"
  else if falsy d.date then some "date"
  else if falsy d.status then some "status"
  else none

/-- SQLite's id assignment for an integer primary key without
AUTOINCREMENT: one larger than the largest id currently in the table
(1 for an empty table). -/
def nextId (s : Store) : Nat :=
  (s.tasks.map Task.id).foldr max 0 + 1

/-- All six required create fields are supplied and non-empty. -/
def requiredPresent (d : CreateInput) : Prop :=
  falsy d.date = false ∧ falsy d.entityName = false ∧
  falsy d.taskType = false ∧ falsy d.time = false ∧
  falsy d.contactPerson = false ∧ falsy d.status = false

instance (d : CreateInput) : Decidable (requiredPresent d) := by
  unfold requiredPresent
  infer_instance

/-- The `Task(...)` constructor call of `create_task` (`app.py` lines
111-120), together with the id and timestamp column defaults applied by
the insert. -/
def newTask (s : Store) (now : Nat) (d : CreateInput) : Task :=
  { id := nextId s
    date := d.date.getD ""
    entity_name := d.entityName.getD ""
    task_type := d.taskType.getD ""
    time := d.time.getD ""
    contact_person := d.contactPerson.getD ""
    notes := d.notes
    status := d.status.getD ""
    phone_number := d.phoneNumber
    created_at := now
    updated_at := now }

/-- `create_task` (`app.py` lines 101-127): POST `/api/tasks`.
Returns the (possibly updated) store, the HTTP status, and either the
created record or an error message.  Both timestamp column defaults read
the clock at insert time, modelled by the single `now` argument. -/
def create_task (s : Store) (now : Nat) (d : CreateInput) :
    Store × Nat × Except String TaskDict :=
  match firstMissing d with
  | some f => (s, 400, Except.error ("Missing field: " ++ f))
  | none =>
    (⟨s.tasks ++ [newTask s now d]⟩, 201, Except.ok (newTask s now d).to_dict)

/-- `Task.query.get(i)`: primary-key lookup. -/
def findTask (s : Store) (i : Nat) : Option Task :=
  s.tasks.find? fun t => t.id == i

/-- `str(e)` for the `werkzeug.exceptions.NotFound` raised by
`Task.query.get_or_404` when the id is absent. -/
def notFoundMessage : String :=
  "404 Not Found: The requested URL was not found on the server. If you entered the URL manually please check your spelling and try again."

/-- `get_task` (`app.py` lines 130-136): GET `/api/tasks/{id}`.
When the id is absent, `get_or_404` raises `NotFound`, which the
handler's own `except Exception` clause catches, producing a 500
response with `str(e)` — not a 404. -/
def get_task (s : Store) (i : Nat) : Nat × Except String TaskDict :=
  match findTask s i with
  | some t => (200, Except.ok t.to_dict)
  | none => (500, Except.error notFoundMessage)

/-- The JSON body of a PATCH `/api/tasks/{id}` request (`app.py`
line 143).  For `status` and `entityName`, `none` means the key is
absent; for the nullable `notes` column, the outer option is presence of
the key and the inner option the (possibly null) value. -/
structure PatchInput where
  status : Option String
  entityName : Option String
  notes : Option (Option String)
deriving DecidableEq

/-- The three `if 'field' in data` assignments of `update_task`
(`app.py` lines 145-150). -/
def applyPatch (t : Task) (p : PatchInput) : Task :=
  { t with
    status := p.status.getD t.status
    entity_name := p.entityName.getD t.entity_name
    notes := p.notes.getD t.notes }

/-- `update_task` (`app.py` lines 139-156): PATCH `/api/tasks/{id}`.
An absent id again surfaces as a 500 (the caught `NotFound`).  On an
existing id the patched attributes are assigned and `db.session.commit()`
flushes; SQLAlchemy issues an `UPDATE` only when some attribute has a
net change, and only then does the `onupdate` hook refresh `updated_at`. -/
def update_task (s : Store) (now : Nat) (i : Nat) (p : PatchInput) :
    Store × Nat × Except String TaskDict :=
  match findTask s i with
  | none => (s, 500, Except.error notFoundMessage)
  | some t =>
    let a := applyPatch t p
    let t2 := if a = t then t else { a with updated_at := now }
    (⟨s.tasks.map fun u => if u.id == i then t2 else u⟩, 200,
      Except.ok t2.to_dict)

/-- `delete_task` (`app.py` lines 159-168): DELETE `/api/tasks/{id}`.
An absent id again surfaces as a 500 (the caught `NotFound`). -/
def delete_task (s : Store) (i : Nat) :
    Store × Nat × Except String String :=
  match findTask s i with
  | none => (s, 500, Except.error notFoundMessage)
  | some _ =>
    (⟨s.tasks.filter fun u => !(u.id == i)⟩, 200,
      Except.ok "Task deleted successfully")

/-- Insertion step for `ORDER BY created_at DESC`. -/
def insertTask (t : Task) : List Task → List Task
  | [] => [t]
  | u :: us =>
    if t.created_at ≤ u.created_at then u :: insertTask t us
    else t :: u :: us

/-- `ORDER BY created_at DESC` (`app.py` line 95): sorts rows by
`created_at`, newest first. -/
def sortByCreatedDesc : List Task → List Task
  | [] => []
  | t :: ts => insertTask t (sortByCreatedDesc ts)

/-- `get_tasks` (`app.py` lines 81-98): GET `/api/tasks?search=...`.
`if search:` is Python truthiness, so the filter applies exactly when
the term is non-empty; matching rows are those where `entity_name` or
`contact_person` matches the ILIKE pattern `'%' + search + '%'`. -/
def get_tasks (s : Store) (search : String) : Nat × List TaskDict :=
  let base :=
    if search = "" then s.tasks
    else s.tasks.filter fun t =>
      ilike t.entity_name search || ilike t.contact_person search
  (200, (sortByCreatedDesc base).map Task.to_dict)

/-- Well-formedness of the table: ids are unique (integer primary key)
and `created_at ≤ updated_at` on every row. -/
def WF (s : Store) : Prop :=
  (s.tasks.map Task.id).Nodup ∧ ∀ t ∈ s.tasks, t.created_at ≤ t.updated_at

instance (s : Store) : Decidable (WF s) := by
  unfold WF
  infer_instance

/-- A create request with all required fields supplied, used as concrete
input by witnesses and counterexamples. -/
def sampleInput : CreateInput :=
  { date := some "2025-06-14"
    entityName := some "ABC Pvt Ltd"
    taskType := some "Call"
    time := some "10:00 AM"
    contactPerson := some "Ravi Kumar"
    notes := some "Follow-up call for demo"
    status := some "Open"
    phoneNumber := some "+91-9876543210" }

/-- A concrete stored row, used by witnesses and counterexamples. -/
def sampleTask : Task :=
  { id := 1
    date := "2025-06-14"
    entity_name := "ABC Pvt Ltd"
    task_type := "Call"
    time := "10:00 AM"
    contact_person := "Ravi Kumar"
    notes := some "Follow-up call for demo"
    status := "Open"
    phone_number := some "+91-9876543210"
    created_at := 1
    updated_at := 5 }

/-- A second concrete stored row, created later than `sampleTask`. -/
def sampleTask2 : Task :=
  { id := 2
    date := "2025-06-15"
    entity_name := "XYZ Ltd"
    task_type := "Meeting"
    time := "02:00 PM"
    contact_person := "Suresh Sharma"
    notes := some "Client presentation"
    status := "Closed"
    phone_number := none
    created_at := 8
    updated_at := 8 }

/-- `sampleInput` with the required `contactPerson` field omitted. -/
def missingContactInput : CreateInput :=
  { sampleInput with contactPerson := none }

/-- Does the create input have the required field of this wire name
missing or empty?  (`false` for non-required names.) -/
def wireFalsy (d : CreateInput) : String → Bool
  | "date" => falsy d.date
  | "entityName" => falsy d.entityName
  | "taskType" => falsy d.taskType
  | "time" => falsy d.time
  | "contactPerson" => falsy d.contactPerson
  | "status" => falsy d.status
  | _ => false

theorem insertTask_perm (t : Task) (l : List Task) :
    (insertTask t l).Perm (t :: l) := by
  induction l with
  | nil => simp [insertTask]
  | cons u us ih =>
    simp only [insertTask]
    split
    · exact (ih.cons u).trans (List.Perm.swap t u us)
    · exact List.Perm.refl _

theorem sortByCreatedDesc_perm (l : List Task) :
    (sortByCreatedDesc l).Perm l := by
  induction l with
  | nil => simp [sortByCreatedDesc]
  | cons t ts ih =>
    exact (insertTask_perm t _).trans (ih.cons t)

theorem insertTask_pairwise {t : Task} {l : List Task}
    (h : l.Pairwise fun a b => b.created_at ≤ a.created_at) :
    (insertTask t l).Pairwise fun a b => b.created_at ≤ a.created_at := by
  induction l with
  | nil => simp [insertTask]
  | cons u us ih =>
    rw [List.pairwise_cons] at h
    obtain ⟨hu, hus⟩ := h
    simp only [insertTask]
    split
    case isTrue hle =>
      rw [List.pairwise_cons]
      refine ⟨fun x hx => ?_, ih hus⟩
      rcases List.mem_cons.mp ((insertTask_perm t us).mem_iff.mp hx) with rfl | h2
      · exact hle
      · exact hu x h2
    case isFalse hgt =>
      rw [List.pairwise_cons]
      refine ⟨fun x hx => ?_, List.pairwise_cons.mpr ⟨hu, hus⟩⟩
      rcases List.mem_cons.mp hx with rfl | h2
      · exact Nat.le_of_not_le hgt
      · exact Nat.le_trans (hu x h2) (Nat.le_of_not_le hgt)

theorem sortByCreatedDesc_pairwise (l : List Task) :
    (sortByCreatedDesc l).Pairwise fun a b => b.created_at ≤ a.created_at := by
  induction l with
  | nil => simp [sortByCreatedDesc]
  | cons t ts ih => exact insertTask_pairwise ih

theorem le_foldr_max (l : List Nat) : ∀ x ∈ l, x ≤ l.foldr max 0 := by
  induction l with
  | nil => intro x hx; cases hx
  | cons a as ih =>
    intro x hx
    rcases List.mem_cons.mp hx with rfl | h
    · exact Nat.le_max_left _ _
    · exact Nat.le_trans (ih x h) (Nat.le_max_right _ _)

theorem nextId_not_mem (s : Store) : nextId s ∉ s.tasks.map Task.id := by
  intro h
  have h2 := le_foldr_max (s.tasks.map Task.id) (nextId s) h
  unfold nextId at h2
  omega

theorem find?_fresh (l : List Task) (t : Task)
    (h : ∀ u ∈ l, u.id ≠ t.id) :
    List.find? (fun u => u.id == t.id) (l ++ [t]) = some t := by
  induction l with
  | nil => simp [List.find?]
  | cons u us ih =>
    have hu : (u.id == t.id) = false := by
      simpa using h u (List.mem_cons_self u us)
    simp only [List.cons_append, List.find?, hu]
    exact ih fun v hv => h v (List.mem_cons_of_mem _ hv)

theorem find?_eq_of_nodup (l : List Task) (i : Nat) (u : Task)
    (hn : (l.map Task.id).Nodup) (hu : u ∈ l) (hid : u.id = i) :
    l.find? (fun t => t.id == i) = some u := by
  induction l with
  | nil => cases hu
  | cons v vs ih =>
    rw [List.map_cons, List.nodup_cons] at hn
    rcases List.mem_cons.mp hu with rfl | hmem
    · have : (u.id == i) = true := by simp [hid]
      simp [List.find?, this]
    · have hvi : (v.id == i) = false := by
        simp only [beq_eq_false_iff_ne, ne_eq]
        intro hv
        exact hn.1 (hv ▸ hid ▸ List.mem_map_of_mem Task.id hmem)
      simp only [List.find?, hvi]
      exact ih hn.2 hmem

theorem firstMissing_eq_none (d : CreateInput) :
    firstMissing d = none ↔ requiredPresent d := by
  cases h1 : falsy d.entityName <;> cases h2 : falsy d.taskType <;>
    cases h3 : falsy d.time <;> cases h4 : falsy d.contactPerson <;>
    cases h5 : falsy d.date <;> cases h6 : falsy d.status <;>
    simp [firstMissing, requiredPresent, h1, h2, h3, h4, h5, h6]

theorem matchSuffixes_eq_true_iff (f : List Char → Bool) (s : List Char) :
    matchSuffixes f s = true ↔ ∃ t, t <:+ s ∧ f t = true := by
  induction s with
  | nil =>
    simp [matchSuffixes, List.suffix_nil]
  | cons c cs ih =>
    simp only [matchSuffixes, Bool.or_eq_true, ih, List.suffix_cons_iff]
    constructor
    · rintro (h | ⟨t, ht, hf⟩)
      · exact ⟨c :: cs, Or.inl rfl, h⟩
      · exact ⟨t, Or.inr ht, hf⟩
    · rintro ⟨t, rfl | ht, hf⟩
      · exact Or.inl hf
      · exact Or.inr ⟨t, ht, hf⟩

theorem likeMatch_percent_cons (ps : List Char) (s : List Char) :
    likeMatch ('%' :: ps) s = matchSuffixes (likeMatch ps) s := by
  simp [likeMatch]

theorem likeMatch_single_percent (s : List Char) :
    likeMatch ['%'] s = true := by
  rw [likeMatch_percent_cons]
  induction s with
  | nil => simp [matchSuffixes, likeMatch]
  | cons c cs ih =>
    simp only [matchSuffixes, Bool.or_eq_true]
    exact Or.inr ih

theorem matchSuffixes_of_all (f : List Char → Bool)
    (hf : ∀ t, f t = true) (s : List Char) :
    matchSuffixes f s = true := by
  induction s with
  | nil => simp [matchSuffixes, hf]
  | cons c cs ih => simp [matchSuffixes, hf, ih]

theorem likeMatch_triple_percent (s : List Char) :
    likeMatch ['%', '%', '%'] s = true := by
  have h2 : ∀ t, likeMatch ['%', '%'] t = true := fun t => by
    rw [likeMatch_percent_cons]
    exact matchSuffixes_of_all _ likeMatch_single_percent t
  rw [likeMatch_percent_cons]
  exact matchSuffixes_of_all _ h2 s

theorem likeMatch_plain_percent (ps : List Char)
    (hw : ∀ c ∈ ps, c ≠ '%' ∧ c ≠ '_') (s : List Char) :
    likeMatch (ps ++ ['%']) s = true ↔
      ps.map Char.toLower <+: s.map Char.toLower := by
  induction ps generalizing s with
  | nil =>
    simp [likeMatch_single_percent, List.nil_prefix]
  | cons p ps' ih =>
    have hp := hw p (List.mem_cons_self p ps')
    have hw' : ∀ c ∈ ps', c ≠ '%' ∧ c ≠ '_' :=
      fun x hx => hw x (List.mem_cons_of_mem p hx)
    cases s with
    | nil =>
      simp [likeMatch, hp.1]
    | cons c s' =>
      simp [likeMatch, hp.1, hp.2, ih hw' s', List.cons_prefix_cons]

theorem exists_suffix_lower (term s : List Char) :
    (∃ t, t <:+ s ∧ term.map Char.toLower <+: t.map Char.toLower) ↔
      term.map Char.toLower <:+: s.map Char.toLower := by
  constructor
  · rintro ⟨t, ⟨q, rfl⟩, ⟨r, hr⟩⟩
    refine ⟨q.map Char.toLower, r, ?_⟩
    rw [List.map_append, List.append_assoc, hr]
  · rintro ⟨q, r, hqr⟩
    refine ⟨s.drop q.length, List.drop_suffix _ _, ?_⟩
    have hd : (s.map Char.toLower).drop q.length =
        term.map Char.toLower ++ r := by
      rw [← hqr, List.append_assoc, List.drop_left]
    rw [← List.map_drop] at hd
    rw [hd]
    exact List.prefix_append _ _

theorem ilike_iff_containsCI (hay term : String)
    (hw : ∀ c ∈ term.toList, c ≠ '%' ∧ c ≠ '_') :
    ilike hay term = true ↔ containsCI hay term := by
  unfold ilike containsCI lowerChars
  rw [likeMatch_percent_cons, matchSuffixes_eq_true_iff, ← exists_suffix_lower]
  exact exists_congr fun t =>
    and_congr_right fun _ => likeMatch_plain_percent term.toList hw t

theorem ilike_eq_decide (hay term : String)
    (hw : ∀ c ∈ term.toList, c ≠ '%' ∧ c ≠ '_') :
    ilike hay term = decide (containsCI hay term) := by
  by_cases h : containsCI hay term
  · rw [(ilike_iff_containsCI hay term hw).mpr h, decide_eq_true h]
  · rw [decide_eq_false h]
    cases hb : ilike hay term
    · rfl
    · exact absurd ((ilike_iff_containsCI hay term hw).mp hb) h

/-- Claim C1: the claim says Get/Update/Delete on an absent id fail with
an HTTP 404.  The code calls `get_or_404`, whose `NotFound` is a subclass
of `Exception` and is therefore caught by each handler's own
`except Exception` clause, which returns HTTP 500 with `str(e)`.
Evaluated at the failing input (empty store, id 7), all three handlers
return 500, not 404. -/
theorem c1_absent_id_yields_500 :
    get_task (⟨[]⟩ : Store) 7 = (500, Except.error notFoundMessage) ∧
    update_task (⟨[]⟩ : Store) 0 7 ⟨none, none, none⟩ =
      ((⟨[]⟩ : Store), 500, Except.error notFoundMessage) ∧
    delete_task (⟨[]⟩ : Store) 7 =
      ((⟨[]⟩ : Store), 500, Except.error notFoundMessage) := by
  refine ⟨rfl, rfl, rfl⟩

/-- Claim C2, counterexample: a PATCH whose field set is empty succeeds
(200) at current time 10 on a task whose stored `updated_at` is 5, and
the returned record still carries `updatedAt = 5`, not the current
time — SQLAlchemy issues no UPDATE, so `onupdate` never fires. -/
theorem c2_counterexample :
    (update_task (⟨[sampleTask]⟩ : Store) 10 1 ⟨none, none, none⟩).2.1 = 200 ∧
    (update_task (⟨[sampleTask]⟩ : Store) 10 1 ⟨none, none, none⟩).2.2 =
      Except.ok sampleTask.to_dict ∧
    sampleTask.to_dict.updatedAt = some 5 ∧
    decide ((5 : Nat) = 10) = false := by decide

/-- Claim C2 as amended: a successful update returns the full updated
record, and refreshes `updated_at` to the current time exactly when the
applied field set actually changes the row (`applyPatch t p ≠ t`); an
update that changes nothing — empty field set, or values equal to the
stored ones — leaves `updated_at` unchanged. -/
theorem c2_updatedAt_refreshed_iff_changed (s : Store) (now i : Nat)
    (p : PatchInput) (t : Task) (h : findTask s i = some t) :
    ∃ t2 : Task,
      update_task s now i p =
        (⟨s.tasks.map fun u => if u.id == i then t2 else u⟩, 200,
          Except.ok t2.to_dict) ∧
      t2.updated_at = (if applyPatch t p = t then t.updated_at else now) := by
  by_cases hc : applyPatch t p = t
  · exact ⟨t, by simp [update_task, h, hc], by simp [hc]⟩
  · exact ⟨{ applyPatch t p with updated_at := now },
      by simp [update_task, h, hc], by simp [hc]⟩

/-- Witness for claim C2's amended theorem at a concrete store. -/
theorem c2_updatedAt_witness :
    findTask (⟨[sampleTask]⟩ : Store) 1 = some sampleTask ∧
    ∃ t2 : Task,
      update_task (⟨[sampleTask]⟩ : Store) 10 1 ⟨none, none, none⟩ =
        (⟨(⟨[sampleTask]⟩ : Store).tasks.map fun u =>
            if u.id == 1 then t2 else u⟩, 200, Except.ok t2.to_dict) ∧
      t2.updated_at =
        (if applyPatch sampleTask ⟨none, none, none⟩ = sampleTask
          then sampleTask.updated_at else 10) :=
  ⟨by decide, c2_updatedAt_refreshed_iff_changed ⟨[sampleTask]⟩ 10 1
    ⟨none, none, none⟩ sampleTask (by decide)⟩

/-- Claim C3, counterexample: on an empty store, Create assigns id 1;
after deleting that record, the next Create assigns id 1 again — an id
that had been assigned to a record since deleted (SQLite reuses the
maximal rowid). -/
theorem c3_counterexample :
    ((create_task (⟨[]⟩ : Store) 0 sampleInput).2.2.toOption.map TaskDict.id
      = some 1) ∧
    ((create_task
        ((delete_task (create_task (⟨[]⟩ : Store) 0 sampleInput).1 1).1)
        3 sampleInput).2.2.toOption.map TaskDict.id = some 1) := by
  decide

/-- Claim C3 as amended: a create request supplying non-empty values for
all required fields succeeds with 201 and returns a record whose id is a
positive integer distinct from the id of every record currently in the
store (namely one greater than the largest current id); ids of records
since deleted may be reused. -/
theorem c3_create_fresh_current_id (s : Store) (now : Nat) (d : CreateInput)
    (h : requiredPresent d) :
    create_task s now d =
      (⟨s.tasks ++ [newTask s now d]⟩, 201,
        Except.ok (newTask s now d).to_dict) ∧
    0 < (newTask s now d).id ∧
    (newTask s now d).id ∉ s.tasks.map Task.id ∧
    (newTask s now d).id = nextId s := by
  have h0 : firstMissing d = none := (firstMissing_eq_none d).mpr h
  exact ⟨by simp [create_task, h0], Nat.succ_pos _, nextId_not_mem s, rfl⟩

/-- Witness for claim C3's amended theorem at a concrete input. -/
theorem c3_create_fresh_witness :
    requiredPresent sampleInput ∧
    (create_task (⟨[]⟩ : Store) 5 sampleInput =
      (⟨(⟨[]⟩ : Store).tasks ++ [newTask ⟨[]⟩ 5 sampleInput]⟩, 201,
        Except.ok (newTask ⟨[]⟩ 5 sampleInput).to_dict) ∧
    0 < (newTask ⟨[]⟩ 5 sampleInput).id ∧
    (newTask ⟨[]⟩ 5 sampleInput).id ∉ (⟨[]⟩ : Store).tasks.map Task.id ∧
    (newTask ⟨[]⟩ 5 sampleInput).id = nextId ⟨[]⟩) :=
  ⟨by decide, c3_create_fresh_current_id ⟨[]⟩ 5 sampleInput (by decide)⟩

/-- Claim C4, counterexample: searching for the term `A_C` returns
`sampleTask` (its pattern's `_` matches the `B` of `ABC Pvt Ltd`), yet
`A_C` is not a case-insensitive substring of either its `entityName` or
its `contactPerson` — so List does not return exactly the substring
matches for every non-empty term. -/
theorem c4_counterexample :
    (get_tasks (⟨[sampleTask]⟩ : Store) "A_C").2 = [sampleTask.to_dict] ∧
    decide (containsCI sampleTask.entity_name "A_C") = false ∧
    decide (containsCI sampleTask.contact_person "A_C") = false := by
  decide

/-- Claim C4 as amended: for every non-empty search term containing no
LIKE wildcard character (`%` or `_`), List returns, with a 200 status,
exactly the tasks whose `entityName` or `contactPerson` contains the
term case-insensitively as an unanchored, untokenized substring
(ordered by `created_at` descending), and the empty list — not an
error — when no task matches.  Terms containing `%` or `_` are instead
interpreted as LIKE wildcard patterns. -/
theorem c4_search_substring (s : Store) (term : String)
    (hne : ¬ term = "")
    (hw : ∀ c ∈ term.toList, c ≠ '%' ∧ c ≠ '_') :
    (get_tasks s term).1 = 200 ∧
    (get_tasks s term).2 =
      (sortByCreatedDesc (s.tasks.filter fun t =>
        decide (containsCI t.entity_name term) ||
          decide (containsCI t.contact_person term))).map Task.to_dict ∧
    (sortByCreatedDesc (s.tasks.filter fun t =>
        decide (containsCI t.entity_name term) ||
          decide (containsCI t.contact_person term))).Perm
      (s.tasks.filter fun t =>
        decide (containsCI t.entity_name term) ||
          decide (containsCI t.contact_person term)) ∧
    ((∀ t ∈ s.tasks, decide (containsCI t.entity_name term) = false ∧
        decide (containsCI t.contact_person term) = false) →
      (get_tasks s term).2 = []) := by
  have hfe : (s.tasks.filter fun t =>
      ilike t.entity_name term || ilike t.contact_person term) =
      (s.tasks.filter fun t =>
        decide (containsCI t.entity_name term) ||
          decide (containsCI t.contact_person term)) := by
    apply List.filter_congr
    intro t _
    rw [ilike_eq_decide _ _ hw, ilike_eq_decide _ _ hw]
  refine ⟨rfl, ?_, sortByCreatedDesc_perm _, ?_⟩
  · simp only [get_tasks]
    rw [if_neg hne, hfe]
  · intro hnone
    have hnil : (s.tasks.filter fun t =>
        decide (containsCI t.entity_name term) ||
          decide (containsCI t.contact_person term)) = [] := by
      rw [List.filter_eq_nil_iff]
      intro t ht
      simp [(hnone t ht).1, (hnone t ht).2]
    simp only [get_tasks]
    rw [if_neg hne, hfe, hnil]
    rfl

/-- Witness for claim C4's amended theorem at a concrete store and term. -/
theorem c4_search_witness :
    ¬ ("ravi" : String) = "" ∧
    (∀ c ∈ ("ravi" : String).toList, c ≠ '%' ∧ c ≠ '_') ∧
    ((get_tasks (⟨[sampleTask]⟩ : Store) "ravi").1 = 200 ∧
    (get_tasks (⟨[sampleTask]⟩ : Store) "ravi").2 =
      (sortByCreatedDesc ((⟨[sampleTask]⟩ : Store).tasks.filter fun t =>
        decide (containsCI t.entity_name "ravi") ||
          decide (containsCI t.contact_person "ravi"))).map Task.to_dict ∧
    (sortByCreatedDesc ((⟨[sampleTask]⟩ : Store).tasks.filter fun t =>
        decide (containsCI t.entity_name "ravi") ||
          decide (containsCI t.contact_person "ravi"))).Perm
      ((⟨[sampleTask]⟩ : Store).tasks.filter fun t =>
        decide (containsCI t.entity_name "ravi") ||
          decide (containsCI t.contact_person "ravi")) ∧
    ((∀ t ∈ (⟨[sampleTask]⟩ : Store).tasks,
        decide (containsCI t.entity_name "ravi") = false ∧
        decide (containsCI t.contact_person "ravi") = false) →
      (get_tasks (⟨[sampleTask]⟩ : Store) "ravi").2 = [])) :=
  ⟨by decide, by decide,
    c4_search_substring ⟨[sampleTask]⟩ "ravi" (by decide) (by decide)⟩

/-- Claim C5: List with no search term answers 200 with all stored
tasks ordered by `created_at` descending: the result is a permutation
of the store sorted so that `created_at` is non-increasing, and hence a
task with a strictly later `created_at` (created after, under a
monotone clock) appears strictly earlier in the result. -/
theorem c5_list_desc (s : Store) :
    get_tasks s "" = (200, (sortByCreatedDesc s.tasks).map Task.to_dict) ∧
    (sortByCreatedDesc s.tasks).Perm s.tasks ∧
    (sortByCreatedDesc s.tasks).Pairwise
      (fun a b => b.created_at ≤ a.created_at) ∧
    ∀ (i j : Nat) (hi : i < (sortByCreatedDesc s.tasks).length)
      (hj : j < (sortByCreatedDesc s.tasks).length),
      ((sortByCreatedDesc s.tasks).get ⟨i, hi⟩).created_at <
        ((sortByCreatedDesc s.tasks).get ⟨j, hj⟩).created_at → j < i := by
  refine ⟨by simp [get_tasks], sortByCreatedDesc_perm _,
    sortByCreatedDesc_pairwise _, ?_⟩
  intro i j hi hj hlt
  by_contra hji
  have hij : i ≤ j := Nat.le_of_not_lt hji
  rcases Nat.lt_or_ge i j with hlt2 | hge
  · have hp := (List.pairwise_iff_getElem.mp
      (sortByCreatedDesc_pairwise s.tasks)) i j hi hj hlt2
    rw [List.get_eq_getElem, List.get_eq_getElem] at hlt
    exact absurd hlt (Nat.not_lt.mpr hp)
  · have hej : i = j := Nat.le_antisymm hij hge
    subst hej
    exact Nat.lt_irrefl _ hlt

/-- Witness for claim C5 at a concrete two-task store: `sampleTask2`
(created at time 8, after `sampleTask`, created at time 1) appears at
index 0, before `sampleTask` at index 1. -/
theorem c5_list_desc_witness :
    ((sortByCreatedDesc (⟨[sampleTask, sampleTask2]⟩ : Store).tasks).get
        ⟨1, by decide⟩).created_at <
      ((sortByCreatedDesc (⟨[sampleTask, sampleTask2]⟩ : Store).tasks).get
        ⟨0, by decide⟩).created_at ∧ (0 : Nat) < 1 :=
  ⟨by decide, (c5_list_desc ⟨[sampleTask, sampleTask2]⟩).2.2.2 1 0
    (by decide) (by decide) (by decide)⟩

/-- Claim C6: a create request with some required field missing or empty
fails with 400, an error naming a missing-or-empty required field, and
an unchanged store; when all six required fields are present and
non-empty (whatever `notes` and `phoneNumber` are, including absent),
creation succeeds with 201. -/
theorem c6_create_validation (s : Store) (now : Nat) (d : CreateInput) :
    (¬ requiredPresent d →
      ∃ f, create_task s now d =
          (s, 400, Except.error ("Missing field: " ++ f)) ∧
        wireFalsy d f = true) ∧
    (requiredPresent d → (create_task s now d).2.1 = 201) := by
  constructor
  · intro hmiss
    by_cases h1 : falsy d.entityName = true
    · exact ⟨"entityName", by simp [create_task, firstMissing, h1],
        by simp [wireFalsy, h1]⟩
    by_cases h2 : falsy d.taskType = true
    · exact ⟨"taskType", by simp [create_task, firstMissing, h1, h2],
        by simp [wireFalsy, h2]⟩
    by_cases h3 : falsy d.time = true
    · exact ⟨"time", by simp [create_task, firstMissing, h1, h2, h3],
        by simp [wireFalsy, h3]⟩
    by_cases h4 : falsy d.contactPerson = true
    · exact ⟨"contactPerson",
        by simp [create_task, firstMissing, h1, h2, h3, h4],
        by simp [wireFalsy, h4]⟩
    by_cases h5 : falsy d.date = true
    · exact ⟨"date",
        by simp [create_task, firstMissing, h1, h2, h3, h4, h5],
        by simp [wireFalsy, h5]⟩
    by_cases h6 : falsy d.status = true
    · exact ⟨"status",
        by simp [create_task, firstMissing, h1, h2, h3, h4, h5, h6],
        by simp [wireFalsy, h6]⟩
    exact absurd ⟨Bool.eq_false_iff.mpr h5, Bool.eq_false_iff.mpr h1,
      Bool.eq_false_iff.mpr h2, Bool.eq_false_iff.mpr h3,
      Bool.eq_false_iff.mpr h4, Bool.eq_false_iff.mpr h6⟩ hmiss
  · intro hreq
    have h0 := (firstMissing_eq_none d).mpr hreq
    simp [create_task, h0]

/-- Witness for claim C6 at concrete inputs: omitting `contactPerson`
gives 400 with an error naming a missing field; the full input gives
201 even though it could have omitted `notes`/`phoneNumber`. -/
theorem c6_create_validation_witness :
    ¬ requiredPresent missingContactInput ∧
    (∃ f, create_task (⟨[]⟩ : Store) 0 missingContactInput =
        ((⟨[]⟩ : Store), 400, Except.error ("Missing field: " ++ f)) ∧
      wireFalsy missingContactInput f = true) ∧
    requiredPresent sampleInput ∧
    (create_task (⟨[]⟩ : Store) 0 sampleInput).2.1 = 201 :=
  ⟨by decide,
    (c6_create_validation ⟨[]⟩ 0 missingContactInput).1 (by decide),
    by decide, (c6_create_validation ⟨[]⟩ 0 sampleInput).2 (by decide)⟩

/-- Claim C7: an update on an existing id succeeds and returns a record
in which `status`, `entityName`, `notes` carry the patched value when
the field is present in the input and the stored value otherwise, while
`id`, `date`, `taskType`, `time`, `contactPerson`, `phoneNumber` and
`createdAt` are unchanged. -/
theorem c7_update_frame (s : Store) (now i : Nat) (p : PatchInput)
    (t : Task) (h : findTask s i = some t) :
    ∃ td : TaskDict, (update_task s now i p).2.2 = Except.ok td ∧
      (update_task s now i p).2.1 = 200 ∧
      td.id = t.id ∧ td.date = t.date ∧ td.taskType = t.task_type ∧
      td.time = t.time ∧ td.contactPerson = t.contact_person ∧
      td.phoneNumber = t.phone_number ∧ td.createdAt = some t.created_at ∧
      td.status = p.status.getD t.status ∧
      td.entityName = p.entityName.getD t.entity_name ∧
      td.notes = p.notes.getD t.notes := by
  by_cases hc : applyPatch t p = t
  · have hs : (applyPatch t p).status = t.status := congrArg Task.status hc
    have he : (applyPatch t p).entity_name = t.entity_name :=
      congrArg Task.entity_name hc
    have hn : (applyPatch t p).notes = t.notes := congrArg Task.notes hc
    exact ⟨t.to_dict, by simp [update_task, h, hc], by simp [update_task, h],
      rfl, rfl, rfl, rfl, rfl, rfl, rfl, hs.symm, he.symm, hn.symm⟩
  · exact ⟨({ applyPatch t p with updated_at := now }).to_dict,
      by simp [update_task, h, hc], by simp [update_task, h],
      rfl, rfl, rfl, rfl, rfl, rfl, rfl, rfl, rfl, rfl⟩

/-- Witness for claim C7: patching only `status` on a concrete store. -/
theorem c7_update_frame_witness :
    findTask (⟨[sampleTask]⟩ : Store) 1 = some sampleTask ∧
    ∃ td : TaskDict,
      (update_task (⟨[sampleTask]⟩ : Store) 10 1
        ⟨some "Closed", none, none⟩).2.2 = Except.ok td ∧
      (update_task (⟨[sampleTask]⟩ : Store) 10 1
        ⟨some "Closed", none, none⟩).2.1 = 200 ∧
      td.id = sampleTask.id ∧ td.date = sampleTask.date ∧
      td.taskType = sampleTask.task_type ∧ td.time = sampleTask.time ∧
      td.contactPerson = sampleTask.contact_person ∧
      td.phoneNumber = sampleTask.phone_number ∧
      td.createdAt = some sampleTask.created_at ∧
      td.status = "Closed" ∧
      td.entityName = sampleTask.entity_name ∧
      td.notes = sampleTask.notes :=
  ⟨by decide, c7_update_frame ⟨[sampleTask]⟩ 10 1
    ⟨some "Closed", none, none⟩ sampleTask (by decide)⟩

/-- Claim C8: after a successful create, Get on the returned id answers
200 with exactly the record that Create returned. -/
theorem c8_create_get_roundtrip (s : Store) (now : Nat) (d : CreateInput)
    (h : requiredPresent d) :
    (create_task s now d).2.2 = Except.ok (newTask s now d).to_dict ∧
    get_task (create_task s now d).1 (newTask s now d).id =
      (200, Except.ok (newTask s now d).to_dict) := by
  have h0 : firstMissing d = none := (firstMissing_eq_none d).mpr h
  have hstore : (create_task s now d).1 = ⟨s.tasks ++ [newTask s now d]⟩ := by
    simp [create_task, h0]
  have hfind : findTask (⟨s.tasks ++ [newTask s now d]⟩ : Store)
      (newTask s now d).id = some (newTask s now d) := by
    apply find?_fresh
    intro u hu hEq
    have h2 : u.id = nextId s := hEq
    exact nextId_not_mem s (h2 ▸ List.mem_map_of_mem Task.id hu)
  refine ⟨by simp [create_task, h0], ?_⟩
  rw [hstore]
  simp [get_task, hfind]

/-- Witness for claim C8 at a concrete create. -/
theorem c8_roundtrip_witness :
    requiredPresent sampleInput ∧
    ((create_task (⟨[]⟩ : Store) 5 sampleInput).2.2 =
      Except.ok (newTask ⟨[]⟩ 5 sampleInput).to_dict ∧
    get_task (create_task (⟨[]⟩ : Store) 5 sampleInput).1
        (newTask ⟨[]⟩ 5 sampleInput).id =
      (200, Except.ok (newTask ⟨[]⟩ 5 sampleInput).to_dict)) :=
  ⟨by decide, c8_create_get_roundtrip ⟨[]⟩ 5 sampleInput (by decide)⟩

theorem wf_create (s : Store) (now : Nat) (d : CreateInput) (hwf : WF s) :
    WF (create_task s now d).1 := by
  obtain ⟨hn, hts⟩ := hwf
  cases h0 : firstMissing d with
  | some f =>
    simp only [create_task, h0]
    exact ⟨hn, hts⟩
  | none =>
    simp only [create_task, h0]
    constructor
    · rw [List.map_append]
      have hsing : List.map Task.id [newTask s now d] = [nextId s] := rfl
      rw [hsing]
      refine List.Nodup.append hn (List.nodup_singleton _) ?_
      intro x hx hx2
      rw [List.mem_singleton] at hx2
      subst hx2
      exact nextId_not_mem s hx
    · intro t ht
      rcases List.mem_append.mp ht with h1 | h1
      · exact hts t h1
      · rw [List.mem_singleton] at h1
        subst h1
        exact Nat.le_refl _

theorem wf_update (s : Store) (now i : Nat) (p : PatchInput) (hwf : WF s)
    (hclock : ∀ t ∈ s.tasks, t.created_at ≤ now) :
    WF (update_task s now i p).1 := by
  obtain ⟨hn, hts⟩ := hwf
  cases h : findTask s i with
  | none =>
    simp only [update_task, h]
    exact ⟨hn, hts⟩
  | some t =>
    have h' : s.tasks.find? (fun u => u.id == i) = some t := h
    have hti : t.id = i := by simpa using List.find?_some h'
    have htmem : t ∈ s.tasks := List.mem_of_find?_eq_some h'
    simp only [update_task]
    rw [h]
    constructor
    · have hmapid : ((s.tasks.map fun u =>
          if u.id == i then
            (if applyPatch t p = t then t
              else { applyPatch t p with updated_at := now })
          else u).map Task.id) = s.tasks.map Task.id := by
        rw [List.map_map]
        apply List.map_congr_left
        intro u hu
        simp only [Function.comp_apply]
        by_cases hui : (u.id == i) = true
        · have hu2 : u.id = i := by simpa using hui
          rw [if_pos hui]
          by_cases hc : applyPatch t p = t
          · rw [if_pos hc]
            exact hti.trans hu2.symm
          · rw [if_neg hc]
            exact hti.trans hu2.symm
        · rw [if_neg hui]
      rw [hmapid]
      exact hn
    · intro u' hu'
      obtain ⟨u, hu, rfl⟩ := List.mem_map.mp hu'
      by_cases hui : (u.id == i) = true
      · rw [if_pos hui]
        by_cases hc : applyPatch t p = t
        · rw [if_pos hc]
          exact hts t htmem
        · rw [if_neg hc]
          exact hclock t htmem
      · rw [if_neg hui]
        exact hts u hu

theorem wf_delete (s : Store) (i : Nat) (hwf : WF s) :
    WF (delete_task s i).1 := by
  obtain ⟨hn, hts⟩ := hwf
  cases h : findTask s i with
  | none =>
    simp only [delete_task, h]
    exact ⟨hn, hts⟩
  | some t =>
    simp only [delete_task, h]
    constructor
    · exact hn.sublist ((List.filter_sublist s.tasks).map Task.id)
    · intro u hu
      exact hts u (List.mem_of_mem_filter hu)

theorem update_preserves_id_created (s : Store) (now i : Nat)
    (p : PatchInput) (hwf : WF s) :
    ((update_task s now i p).1.tasks.map fun u => (u.id, u.created_at)) =
      (s.tasks.map fun u => (u.id, u.created_at)) := by
  obtain ⟨hn, _⟩ := hwf
  cases h : findTask s i with
  | none => simp only [update_task, h]
  | some t =>
    have h' : s.tasks.find? (fun u => u.id == i) = some t := h
    simp only [update_task]
    rw [h, List.map_map]
    apply List.map_congr_left
    intro u hu
    simp only [Function.comp_apply]
    by_cases hui : (u.id == i) = true
    · have hu2 : u.id = i := by simpa using hui
      have hfind : s.tasks.find? (fun v => v.id == i) = some u :=
        find?_eq_of_nodup s.tasks i u hn hu hu2
      have hut : t = u := Option.some.inj (h'.symm.trans hfind)
      subst hut
      rw [if_pos hui]
      by_cases hc : applyPatch t p = t
      · rw [if_pos hc]
      · rw [if_neg hc]
        rfl
    · rw [if_neg hui]

/-- Claim C9: on a well-formed store (unique ids, `created_at ≤
updated_at` on every row), every operation preserves well-formedness —
update needs the clock not to run backwards past any row's creation —
and an update never changes the `id` or the `created_at` of any row. -/
theorem c9_timestamp_invariants (s : Store) (now i : Nat)
    (d : CreateInput) (p : PatchInput) (hwf : WF s) :
    WF (create_task s now d).1 ∧
    ((∀ t ∈ s.tasks, t.created_at ≤ now) → WF (update_task s now i p).1) ∧
    WF (delete_task s i).1 ∧
    ((update_task s now i p).1.tasks.map fun u => (u.id, u.created_at)) =
      (s.tasks.map fun u => (u.id, u.created_at)) :=
  ⟨wf_create s now d hwf, fun hclock => wf_update s now i p hwf hclock,
    wf_delete s i hwf, update_preserves_id_created s now i p hwf⟩

/-- Witness for claim C9 on a concrete well-formed store. -/
theorem c9_invariants_witness :
    WF (⟨[sampleTask]⟩ : Store) ∧
    (WF (create_task ⟨[sampleTask]⟩ 10 sampleInput).1 ∧
    ((∀ t ∈ (⟨[sampleTask]⟩ : Store).tasks, t.created_at ≤ 10) →
      WF (update_task ⟨[sampleTask]⟩ 10 1 ⟨some "Closed", none, none⟩).1) ∧
    WF (delete_task (⟨[sampleTask]⟩ : Store) 1).1 ∧
    ((update_task (⟨[sampleTask]⟩ : Store) 10 1
        ⟨some "Closed", none, none⟩).1.tasks.map fun u =>
          (u.id, u.created_at)) =
      ((⟨[sampleTask]⟩ : Store).tasks.map fun u => (u.id, u.created_at))) :=
  ⟨by decide, c9_timestamp_invariants ⟨[sampleTask]⟩ 10 1 sampleInput
    ⟨some "Closed", none, none⟩ (by decide)⟩

/-- Claim C10: the search term is interpolated unescaped into the LIKE
pattern, so `%` and `_` act as wildcards, not literals: a search for `%`
returns every task of any store (ordered as usual), and the term `A_C`
matches `ABC Pvt Ltd` through its `_` wildcard even though neither `%`
nor `A_C` occurs as a literal substring. -/
theorem c10_wildcards :
    (∀ s : Store, get_tasks s "%" =
      (200, (sortByCreatedDesc s.tasks).map Task.to_dict)) ∧
    ilike sampleTask.entity_name "A_C" = true ∧
    decide (containsCI sampleTask.entity_name "A_C") = false ∧
    decide (containsCI sampleTask.entity_name "%") = false ∧
    (get_tasks (⟨[sampleTask]⟩ : Store) "%").2 = [sampleTask.to_dict] := by
  refine ⟨?_, by decide, by decide, by decide, by decide⟩
  intro s
  have hall : ∀ t ∈ s.tasks,
      (ilike t.entity_name "%" || ilike t.contact_person "%") = true := by
    intro t _
    have hpat : ('%' :: (("%" : String).toList ++ ['%'])) = ['%', '%', '%'] :=
      rfl
    have h1 : ilike t.entity_name "%" = true := by
      unfold ilike
      rw [hpat]
      exact likeMatch_triple_percent _
    simp [h1]
  simp only [get_tasks]
  rw [if_neg (by decide : ¬ ("%" : String) = ""),
    List.filter_eq_self.mpr hall]

end TaskApp
